import Mathlib

/-!
Verification of the analytics/gamification engine of the Attendance-Tracker
repository (`useAnalytics` in `src/src/hooks/useUserId.js`).

Shallow embedding conventions:
* A JS `Date` instant is modelled as an integer number of minutes since the
  Unix epoch (UTC).  The runtime's local timezone is an explicit offset
  parameter `tz` in minutes (local wall clock = UTC + `tz`; the app targets
  IST, `tz = 330`; the model has no DST, which IST does not observe either).
  `Date#getHours`, `Date#getMinutes`, `Date#getDay` and
  `Date#toISOString().split('T')[0]` become the arithmetic functions below;
  1970-01-01 (epoch day 0) is a Thursday, weekday index 4.
* A `YYYY-MM-DD` date string (the session's `date` field and every object key
  derived from it) is modelled as its epoch-day number (`Int`).  This is
  faithful because the format is fixed-width and zero-padded, so JS
  lexicographic string comparison and sorting agree with the numeric order,
  and `new Date(dateStr)` is the UTC-midnight instant `day * 1440`.
* JS number arithmetic in the scoring formulas is modelled exactly over `ℚ`
  (the engine's operands are small integers and ratios thereof, far from any
  floating-point rounding at the magnitudes involved); `Math.round` is
  `jsRound`, i.e. floor (x + 1/2), matching JS half-up rounding;
  `Math.ceil` is `Int.ceil`; `Math.floor` division and the `%` operator are
  the Euclidean `/` and `%` of `Int` (all divisors here are positive, where
  Euclidean division coincides with JS `Math.floor` division).
* The wall clock that the source reads via `new Date()` is an explicit
  parameter `now` (minutes since epoch, UTC).
-/

/-- `Math.round` of JS on a real value: round half toward positive infinity. -/
def jsRound (q : ℚ) : Int := Int.floor (q + 1/2)

/-- `Date#getHours` of the instant `t` under local offset `tz` (both in minutes). -/
def jsGetHours (t tz : Int) : Int := (t + tz) % 1440 / 60

/-- `Date#getMinutes` of the instant `t` under local offset `tz`. -/
def jsGetMinutes (t tz : Int) : Int := (t + tz) % 60

/-- `Date#getDay` (0 = Sunday .. 6 = Saturday) of the instant `t` under offset `tz`. -/
def jsGetDay (t tz : Int) : Int := ((t + tz) / 1440 + 4) % 7

/-- The `YYYY-MM-DD` part of `Date#toISOString` of instant `t`: its UTC day number. -/
def utcDayOf (t : Int) : Int := t / 1440

/-- `new Date(dateStr).getDay()` for the date with epoch-day number `d`:
the weekday of the UTC-midnight instant `d * 1440` in the local timezone. -/
def jsDateGetDay (d tz : Int) : Int := jsGetDay (d * 1440) tz

/-- A session record as consumed by `useAnalytics`.  `punch_in` / `punch_out`
are optional absolute timestamps (minutes since epoch); `date` is the
epoch-day number of the session's `YYYY-MM-DD` work-day string.
The source reads `s.duration_minutes || 0`; the `|| 0` guard only converts a
JS-absent/zero value to `0` and is the identity on the integers modelled here. -/
structure Session where
  id : Int := 0
  date : Int
  punch_in : Option Int := none
  punch_out : Option Int := none
  duration_minutes : Int := 0
deriving DecidableEq

/-- One entry of the `insights` output sequence. -/
structure Insight where
  type : String
  icon : String
  text : String
deriving DecidableEq

/-- One entry of the `badges` output sequence.  `gold` is `none` on badges
whose record literal does not set the key (early-bird and overtime). -/
structure Badge where
  id : String
  name : String
  icon : String
  earned : Bool
  gold : Option Bool := none
  progress : Nat
  target : Nat
deriving DecidableEq

/-- One entry of the `heatmapData` output sequence. -/
structure HeatEntry where
  date : Int
  minutes : Int
  level : Nat
  dayOfWeek : Int
deriving DecidableEq

/-- One entry of the `productiveHours` output sequence. -/
structure ProductiveHour where
  hour : Nat
  count : Nat
  level : Int
deriving DecidableEq

/-- The result record of `useAnalytics`. -/
structure AnalyticsResult where
  insights : List Insight
  badges : List Badge
  streak : Nat
  weeklyScore : Int
  heatmapData : List HeatEntry
  avgStartTime : Option String
  avgEndTime : Option String
  bestDay : Option String
  worstDay : Option String
  productiveHours : List ProductiveHour
  weekComparison : Int
deriving DecidableEq

/-- Append a key to a key list if it is not already present: the effect of
`if (!obj[k]) obj[k] = ...` on the insertion-ordered key set of a JS object. -/
def insertFirst (l : List Int) (d : Int) : List Int := if d ∈ l then l else l ++ [d]

/-- `Object.keys(sessionsByDate)` (= `Object.keys(dailyTotals)`): the distinct
session dates in order of first appearance (JS string-keyed objects preserve
insertion order, and `YYYY-MM-DD` keys are not array indices). -/
def bucketDates (sessions : List Session) : List Int :=
  (sessions.map Session.date).foldl insertFirst []

/-- `dailyTotals[date]`: the sum of `duration_minutes` over the sessions of
that date.  For a date with no bucket this is `0`, which also models the
`dailyTotals[dateStr] || 0` lookup (absent key gives `undefined || 0 = 0`,
a present `0` gives `0`, any other present value is returned unchanged). -/
def dailyTotals (sessions : List Session) (date : Int) : Int :=
  ((sessions.filter (fun s => decide (s.date = date))).map Session.duration_minutes).sum

/-- `Object.entries(dailyTotals)` in key-insertion order. -/
def dailyEntries (sessions : List Session) : List (Int × Int) :=
  (bucketDates sessions).map (fun d => (d, dailyTotals sessions d))

/-- The `startTimes` array: local minutes-since-midnight of every `punch_in`. -/
def startTimes (sessions : List Session) (tz : Int) : List Int :=
  sessions.filterMap (fun s =>
    s.punch_in.map (fun t => jsGetHours t tz * 60 + jsGetMinutes t tz))

/-- The `endTimes` array: local minutes-since-midnight of every `punch_out`. -/
def endTimes (sessions : List Session) (tz : Int) : List Int :=
  sessions.filterMap (fun s =>
    s.punch_out.map (fun t => jsGetHours t tz * 60 + jsGetMinutes t tz))

/-- `avgStartMinutes`: rounded mean of `startTimes`, `none` when empty. -/
def avgStartMinutes (sessions : List Session) (tz : Int) : Option Int :=
  if 0 < (startTimes sessions tz).length then
    some (jsRound (((startTimes sessions tz).sum : ℚ) / ((startTimes sessions tz).length : ℚ)))
  else none

/-- `avgEndMinutes`: rounded mean of `endTimes`, `none` when empty. -/
def avgEndMinutes (sessions : List Session) (tz : Int) : Option Int :=
  if 0 < (endTimes sessions tz).length then
    some (jsRound (((endTimes sessions tz).sum : ℚ) / ((endTimes sessions tz).length : ℚ)))
  else none

/-- `String#padStart(2, '0')` applied to the decimal rendering of `n`. -/
def pad2 (n : Int) : String := if n < 10 then "0" ++ toString n else toString n

/-- The `HH:MM` formatting of a minutes-since-midnight value
(`Math.floor(m / 60)` and `m % 60`, both zero-padded to two digits). -/
def formatHM (m : Int) : String := pad2 (m / 60) ++ ":" ++ pad2 (m % 60)

/-- The `avgStartTime` output field. -/
def avgStartTimeOf (sessions : List Session) (tz : Int) : Option String :=
  (avgStartMinutes sessions tz).map formatHM

/-- The `avgEndTime` output field. -/
def avgEndTimeOf (sessions : List Session) (tz : Int) : Option String :=
  (avgEndMinutes sessions tz).map formatHM

/-- The `dayNames` array of the source. -/
def dayNames : List String :=
  ["Sunday", "Monday", "Tuesday", "Wednesday", "Thursday", "Friday", "Saturday"]

/-- `dayOfWeekTotals[w]`: the day totals whose date falls on weekday `w`,
in `Object.entries(dailyTotals)` order (the order they are pushed). -/
def dayTotalsFor (sessions : List Session) (tz : Int) (w : Nat) : List Int :=
  ((dailyEntries sessions).filter (fun p => decide (jsDateGetDay p.1 tz = (w : Int)))).map Prod.snd

/-- The mean of the day totals of weekday `w` (the `avg` local of the source). -/
def weekdayMean (sessions : List Session) (tz : Int) (w : Nat) : ℚ :=
  ((dayTotalsFor sessions tz w).sum : ℚ) / ((dayTotalsFor sessions tz w).length : ℚ)

/-- Weekday `w` has at least one observed day total (`totals.length > 0`). -/
def obsW (sessions : List Session) (tz : Int) (w : Nat) : Prop :=
  dayTotalsFor sessions tz w ≠ []

instance (sessions : List Session) (tz : Int) (w : Nat) :
    Decidable (obsW sessions tz w) := by unfold obsW; infer_instance

/-- The running best/worst accumulator of the best/worst-day loop.
`worstAvg = none` stands for the initial `Infinity`. -/
structure BWState where
  bestAvg : ℚ
  bestDay : Option String
  worstAvg : Option ℚ
  worstDay : Option String
deriving DecidableEq

/-- `avg < worstAvg` where `none` on the right is `Infinity`. -/
def ltOpt (a : ℚ) : Option ℚ → Bool
  | none => true
  | some b => decide (a < b)

/-- One iteration of the best/worst-day loop for weekday `w`. -/
def bwStep (sessions : List Session) (tz : Int) (st : BWState) (w : Nat) : BWState :=
  if 0 < (dayTotalsFor sessions tz w).length then
    let avg := weekdayMean sessions tz w
    let st1 :=
      if st.bestAvg < avg then
        { st with bestAvg := avg, bestDay := some (dayNames.getD w "") }
      else st
    if ltOpt avg st1.worstAvg then
      { st1 with worstAvg := some avg, worstDay := some (dayNames.getD w "") }
    else st1
  else st

/-- The best/worst-day loop over weekdays `0..6` from the initial state
(`bestAvg = 0`, `worstAvg = Infinity`, both days `null`). -/
def bwFinal (sessions : List Session) (tz : Int) : BWState :=
  (List.range 7).foldl (bwStep sessions tz) ⟨0, none, none, none⟩

/-- The streak for-loop with its `break`: count dates from the front while the
day total is at least 360 minutes, stop at the first failure. -/
def streakWalk (total : Int → Int) : List Int → Nat
  | [] => 0
  | d :: ds => if 360 ≤ total d then streakWalk total ds + 1 else 0

/-- `Object.keys(dailyTotals).sort().reverse()`: bucket dates in descending
order (lexicographic on the fixed-width strings = numeric on day numbers). -/
def sortedDates (sessions : List Session) : List Int :=
  (List.insertionSort (fun a b => a ≤ b) (bucketDates sessions)).reverse

/-- The `streak` output field. -/
def streakOf (sessions : List Session) : Nat :=
  streakWalk (dailyTotals sessions) (sortedDates sessions)

/-- The inner hour loop of the productive-hours pass: increment every slot `h`
with `start ≤ h ≤ end` and `h < 24` (the source's loop bounds). -/
def bumpHours (slots : List Nat) (a b : Int) : List Nat :=
  slots.mapIdx (fun h c => if a ≤ (h : Int) ∧ (h : Int) ≤ b ∧ (h : Int) < 24 then c + 1 else c)

/-- The `hourlyWork` 24-slot array after the accumulation pass. -/
def hourlyWork (sessions : List Session) (tz : Int) : List Nat :=
  sessions.foldl (fun slots s =>
    match s.punch_in, s.punch_out with
    | some tin, some tout => bumpHours slots (jsGetHours tin tz) (jsGetHours tout tz)
    | _, _ => slots) (List.replicate 24 0)

/-- `Math.max(...hourlyWork)` (all slots are non-negative, so `0` seeds it). -/
def maxHourlyWork (sessions : List Session) (tz : Int) : Nat :=
  (hourlyWork sessions tz).foldr max 0

/-- The `productiveHours` output field. -/
def productiveHoursOf (sessions : List Session) (tz : Int) : List ProductiveHour :=
  (hourlyWork sessions tz).mapIdx (fun hour count =>
    { hour := hour, count := count,
      level :=
        if 0 < maxHourlyWork sessions tz then
          Int.ceil ((count : ℚ) / (maxHourlyWork sessions tz : ℚ) * 4)
        else 0 })

/-- `thisWeekStart`: `new Date()` with `setDate(getDate() - getDay())`, i.e.
the current instant moved back by the current local weekday number of days
(the local time of day is preserved). -/
def thisWeekStart (now tz : Int) : Int := now - jsGetDay now tz * 1440

/-- `lastWeekStart = thisWeekStart - 7 days`. -/
def lastWeekStart (now tz : Int) : Int := thisWeekStart now tz - 7 * 1440

/-- The body of the week-comparison `forEach`: `new Date(date)` is the
UTC-midnight instant `date * 1440`, compared against the two week-start
instants; the accumulator is `(thisWeekMinutes, lastWeekMinutes)`. -/
def weekStep (now tz : Int) (acc : Int × Int) (p : Int × Int) : Int × Int :=
  if thisWeekStart now tz ≤ p.1 * 1440 then (acc.1 + p.2, acc.2)
  else if lastWeekStart now tz ≤ p.1 * 1440 ∧ p.1 * 1440 < thisWeekStart now tz then
    (acc.1, acc.2 + p.2)
  else acc

/-- The week-comparison accumulation over `Object.entries(dailyTotals)`. -/
def weekMinutes (sessions : List Session) (now tz : Int) : Int × Int :=
  (dailyEntries sessions).foldl (weekStep now tz) (0, 0)

/-- The `weekComparison` output field. -/
def weekComparisonOf (sessions : List Session) (now tz : Int) : Int :=
  if 0 < (weekMinutes sessions now tz).2 then
    jsRound ((((weekMinutes sessions now tz).1 : ℚ) - ((weekMinutes sessions now tz).2 : ℚ))
      / ((weekMinutes sessions now tz).2 : ℚ) * 100)
  else 0

/-- `lateArrivals`: sessions whose punch-in local hour is at least 10. -/
def lateArrivals (sessions : List Session) (tz : Int) : Nat :=
  (sessions.filter (fun s =>
    match s.punch_in with
    | some t => decide (10 ≤ jsGetHours t tz)
    | none => false)).length

/-- `earlyLogouts`: bucketed days with a total strictly between 0 and 480. -/
def earlyLogouts (sessions : List Session) : Nat :=
  ((dailyEntries sessions).filter (fun p => decide (p.2 < 480 ∧ 0 < p.2))).length

/-- `workingDays = Object.keys(dailyTotals).length`. -/
def workingDays (sessions : List Session) : Nat := (bucketDates sessions).length

/-- `totalMinutesThisMonth`: sum of all day totals. -/
def totalMinutesThisMonth (sessions : List Session) : Int :=
  ((dailyEntries sessions).map Prod.snd).sum

/-- `avgDaily` of the consistency insight. -/
def avgDaily (sessions : List Session) : ℚ :=
  (totalMinutesThisMonth sessions : ℚ) / (workingDays sessions : ℚ)

/-- `Number#toFixed(1)` on the non-negative values formatted by the insights
(idealized over `ℚ`: one digit after the point, rounded half up). -/
def toFixed1 (q : ℚ) : String :=
  toString (jsRound (q * 10) / 10) ++ "." ++ toString (jsRound (q * 10) % 10)

/-- `earlyStarts`: sessions whose punch-in local hour is strictly before 9. -/
def earlyStarts (sessions : List Session) (tz : Int) : Nat :=
  (sessions.filter (fun s =>
    match s.punch_in with
    | some t => decide (jsGetHours t tz < 9)
    | none => false)).length

/-- `consistentDays`: bucketed days with a total of at least 480 minutes. -/
def consistentDays (sessions : List Session) : Nat :=
  (((dailyEntries sessions).map Prod.snd).filter (fun m => decide (480 ≤ m))).length

/-- `overtimeDays`: bucketed days with a total of at least 600 minutes. -/
def overtimeDays (sessions : List Session) : Nat :=
  (((dailyEntries sessions).map Prod.snd).filter (fun m => decide (600 ≤ m))).length

/-- The `insights` output sequence, in the fixed emission order of the source. -/
def insightsOf (sessions : List Session) (now tz : Int) : List Insight :=
  (if 3 < lateArrivals sessions tz then
    [{ type := "warning", icon := "⏰",
       text := "Late arrivals detected: " ++ toString (lateArrivals sessions tz)
         ++ " times this month" }]
  else []) ++
  (if 3 < earlyLogouts sessions then
    [{ type := "warning", icon := "🚪",
       text := "Early logouts: " ++ toString (earlyLogouts sessions)
         ++ " days with < 8 hours" }]
  else []) ++
  (if weekComparisonOf sessions now tz ≠ 0 then
    [{ type := if 0 < weekComparisonOf sessions now tz then "success" else "info",
       icon := if 0 < weekComparisonOf sessions now tz then "📈" else "📉",
       text := "You worked " ++ toString (weekComparisonOf sessions now tz).natAbs ++ "% "
         ++ (if 0 < weekComparisonOf sessions now tz then "more" else "less")
         ++ " than last week" }]
  else []) ++
  (if 5 ≤ workingDays sessions ∧ 480 ≤ avgDaily sessions then
    [{ type := "success", icon := "✨",
       text := "Great consistency! Averaging " ++ toFixed1 (avgDaily sessions / 60)
         ++ "h per day" }]
  else []) ++
  (if 3 ≤ streakOf sessions then
    [{ type := "success", icon := "🔥",
       text := toString (streakOf sessions) ++ " day streak! Keep it going!" }]
  else [])

/-- The `badges` output sequence: always these four records, in this order. -/
def badgesOf (sessions : List Session) (tz : Int) : List Badge :=
  [{ id := "early-bird", name := "Early Bird", icon := "🌅",
     earned := decide (5 ≤ earlyStarts sessions tz),
     progress := min (earlyStarts sessions tz) 5, target := 5 },
   { id := "consistency", name := "Consistency King", icon := "👑",
     earned := decide (10 ≤ consistentDays sessions),
     gold := some (decide (10 ≤ consistentDays sessions)),
     progress := min (consistentDays sessions) 10, target := 10 },
   { id := "overtime", name := "Overtime Warrior", icon := "⚔️",
     earned := decide (3 ≤ overtimeDays sessions),
     progress := min (overtimeDays sessions) 3, target := 3 },
   { id := "streak", name := "Streak Master", icon := "🔥",
     earned := decide (7 ≤ streakOf sessions),
     gold := some (decide (7 ≤ streakOf sessions)),
     progress := min (streakOf sessions) 7, target := 7 }]

/-- `targetMinutes = targetHours * 60`. -/
def targetMinutes (targetHours : ℚ) : ℚ := targetHours * 60

/-- `progressScore = min(totalMinutesThisMonth / targetMinutes * 50, 50)`. -/
def progressScore (sessions : List Session) (targetHours : ℚ) : ℚ :=
  min ((totalMinutesThisMonth sessions : ℚ) / targetMinutes targetHours * 50) 50

/-- `consistencyScore = min(consistentDays / 15 * 30, 30)`. -/
def consistencyScore (sessions : List Session) : ℚ :=
  min ((consistentDays sessions : ℚ) / 15 * 30) 30

/-- `streakScore = min(streak / 7 * 20, 20)`. -/
def streakScoreOf (sessions : List Session) : ℚ :=
  min ((streakOf sessions : ℚ) / 7 * 20) 20

/-- The `weeklyScore` output field. -/
def weeklyScoreOf (sessions : List Session) (targetHours : ℚ) : Int :=
  jsRound (progressScore sessions targetHours + consistencyScore sessions
    + streakScoreOf sessions)

/-- The sequence of `level` reassignments of the heatmap loop body. -/
def heatLevel (minutes : Int) : Nat :=
  let level := 0
  let level := if 0 < minutes then 1 else level
  let level := if 240 ≤ minutes then 2 else level
  let level := if 480 ≤ minutes then 3 else level
  if 600 ≤ minutes then 4 else level

/-- The `heatmapData` output sequence: the loop runs `i = 27` down to `0`;
each iteration takes the instant `now - i` days, its UTC date string, the
day-total lookup with `|| 0` default, the level, and the local weekday. -/
def heatmapDataOf (sessions : List Session) (now tz : Int) : List HeatEntry :=
  (List.range 28).map (fun (j : Nat) =>
    let i : Int := 27 - (j : Int)
    let d := now - i * 1440
    let dateN := utcDayOf d
    { date := dateN, minutes := dailyTotals sessions dateN,
      level := heatLevel (dailyTotals sessions dateN), dayOfWeek := jsGetDay d tz })

/-- The best-day projection of one `bwStep` iteration, as a step on the pair
`(bestAvg, bestDay)` alone (the loop body reads and writes the best fields
independently of the worst fields; `bwStep_best` below proves the agreement). -/
def bestStep (sessions : List Session) (tz : Int) (p : ℚ × Option String) (w : Nat) :
    ℚ × Option String :=
  if 0 < (dayTotalsFor sessions tz w).length ∧ p.1 < weekdayMean sessions tz w then
    (weekdayMean sessions tz w, some (dayNames.getD w ""))
  else p

/-- The worst-day projection of one `bwStep` iteration, as a step on the pair
`(worstAvg, worstDay)` alone (`none` in the first component is `Infinity`). -/
def worstStep (sessions : List Session) (tz : Int) (p : Option ℚ × Option String) (w : Nat) :
    Option ℚ × Option String :=
  if 0 < (dayTotalsFor sessions tz w).length ∧ ltOpt (weekdayMean sessions tz w) p.1 = true then
    (some (weekdayMean sessions tz w), some (dayNames.getD w ""))
  else p

/-- Rendering of claim C7's window semantics as the spec words it (for
comparison with the source's `weekComparisonOf`): this week is the calendar
days from the most recent local Sunday on or before today through today,
last week the preceding seven calendar days. -/
def specWeekComparison (sessions : List Session) (now tz : Int) : Int :=
  let todayL := (now + tz).ediv 1440
  let sunday := todayL - jsGetDay now tz
  let tw := (((dailyEntries sessions).filter
    (fun p => decide (sunday ≤ p.1 ∧ p.1 ≤ todayL))).map Prod.snd).sum
  let lw := (((dailyEntries sessions).filter
    (fun p => decide (sunday - 7 ≤ p.1 ∧ p.1 < sunday))).map Prod.snd).sum
  if 0 < lw then jsRound (((tw : ℚ) - (lw : ℚ)) / (lw : ℚ) * 100) else 0

/-- The analytics engine `useAnalytics(sessions, allSessions, targetHours)` of
`src/src/hooks/useUserId.js`, with the wall clock (`now`) and the runtime's
local timezone offset (`tz`) made explicit.  `allSessions` is accepted (it is
the hook's second parameter) but never read by the computation. -/
def useAnalytics (sessions allSessions : List Session) (targetHours : ℚ)
    (now tz : Int) : AnalyticsResult :=
  if sessions = [] then
    { insights := [], badges := [], streak := 0, weeklyScore := 0, heatmapData := [],
      avgStartTime := none, avgEndTime := none, bestDay := none, worstDay := none,
      productiveHours := [], weekComparison := 0 }
  else
    { insights := insightsOf sessions now tz
      badges := badgesOf sessions tz
      streak := streakOf sessions
      weeklyScore := weeklyScoreOf sessions targetHours
      heatmapData := heatmapDataOf sessions now tz
      avgStartTime := avgStartTimeOf sessions tz
      avgEndTime := avgEndTimeOf sessions tz
      bestDay := (bwFinal sessions tz).bestDay
      worstDay := (bwFinal sessions tz).worstDay
      productiveHours := productiveHoursOf sessions tz
      weekComparison := weekComparisonOf sessions now tz }

/-! ### General lemmas about the embedded operations -/

/-- The streak loop counts exactly the longest all-qualifying prefix. -/
lemma streakWalk_eq_takeWhile (total : Int → Int) (l : List Int) :
    streakWalk total l = (l.takeWhile (fun d => decide (360 ≤ total d))).length := by
  induction l with
  | nil => rfl
  | cons d ds ih =>
    by_cases h : 360 ≤ total d
    · simp [streakWalk, List.takeWhile_cons, h, ih]
    · simp [streakWalk, List.takeWhile_cons, h]

/-- The streak loop is monotone in the day-total function. -/
lemma streakWalk_mono (f g : Int → Int) (l : List Int) (h : ∀ d ∈ l, f d ≤ g d) :
    streakWalk f l ≤ streakWalk g l := by
  induction l with
  | nil => exact le_refl _
  | cons d ds ih =>
    by_cases hf : 360 ≤ f d
    · have hg : 360 ≤ g d := le_trans hf (h d (by simp))
      simp only [streakWalk, if_pos hf, if_pos hg]
      exact Nat.succ_le_succ (ih (fun x hx => h x (by simp [hx])))
    · simp [streakWalk, if_neg hf]

/-- The descending date list is sorted in non-increasing order. -/
lemma sortedDates_sorted (sessions : List Session) :
    (sortedDates sessions).Sorted (fun a b => a ≥ b) := by
  unfold sortedDates
  rw [List.Sorted, List.pairwise_reverse]
  exact List.sorted_insertionSort (fun a b => a ≤ b) (bucketDates sessions)

/-- The descending date list is a permutation of the bucket keys. -/
lemma sortedDates_perm (sessions : List Session) :
    List.Perm (sortedDates sessions) (bucketDates sessions) :=
  (List.reverse_perm _).trans
    (List.perm_insertionSort (fun a b => a ≤ b) (bucketDates sessions))

/-! ### C4: empty-input behavior -/

/-- C4: on the empty sessions list the engine returns streak 0, weeklyScore 0,
weekComparison 0, all four optional fields absent, and all four sequence
fields empty, for every `allSessions`, target, clock and timezone. -/
theorem c4_empty_input (a : List Session) (t : ℚ) (n z : Int) :
    useAnalytics [] a t n z =
      { insights := [], badges := [], streak := 0, weeklyScore := 0, heatmapData := [],
        avgStartTime := none, avgEndTime := none, bestDay := none, worstDay := none,
        productiveHours := [], weekComparison := 0 } := rfl

/-! ### C10: the `allSessions` parameter is never read -/

/-- C10: the engine's output does not depend on its `allSessions` argument:
any two values give identical results for the same remaining inputs. -/
theorem c10_allSessions_irrelevant (sessions a₁ a₂ : List Session) (t : ℚ) (n z : Int) :
    useAnalytics sessions a₁ t n z = useAnalytics sessions a₂ t n z := rfl

/-! ### C2: the streak is the qualifying prefix of the descending date walk -/

/-- C2: the streak equals the length of the longest prefix of the bucket keys,
sorted descending, on which every day total is at least 360; the sorted list
is a non-increasing permutation of the bucket keys, so a calendar day with no
bucket is never visited and neither resets nor terminates the count. -/
theorem c2_streak (sessions a : List Session) (t : ℚ) (n z : Int) :
    (useAnalytics sessions a t n z).streak
      = ((sortedDates sessions).takeWhile
          (fun d => decide (360 ≤ dailyTotals sessions d))).length
    ∧ (sortedDates sessions).Sorted (fun a b => a ≥ b)
    ∧ List.Perm (sortedDates sessions) (bucketDates sessions) := by
  refine ⟨?_, sortedDates_sorted sessions, sortedDates_perm sessions⟩
  by_cases h : sessions = []
  · subst h; rfl
  · simp only [useAnalytics, if_neg h]
    exact streakWalk_eq_takeWhile (dailyTotals sessions) (sortedDates sessions)

/-! ### C1: the heatmap -/

/-- C1 counterexample: the claim promises exactly 28 heatmap entries for every
input, but on the empty sessions list the engine's early return produces an
empty `heatmapData`. -/
theorem c1_counterexample :
    ((useAnalytics [] [] 200 6150 330).heatmapData).length ≠ 28 := by decide

/-- Subtracting whole days commutes with taking the UTC day number. -/
lemma utcDayOf_sub_days (n m : Int) : utcDayOf (n - m * 1440) = utcDayOf n - m := by
  show (n - m * 1440) / 1440 = n / 1440 - m
  rw [show n - m * 1440 = n + -m * 1440 by ring,
    Int.add_mul_ediv_right _ _ (by norm_num : (1440 : Int) ≠ 0)]
  ring

/-- The sequential level reassignments compute the highest threshold met. -/
lemma heatLevel_eq (m : Int) :
    heatLevel m = (if 600 ≤ m then 4 else if 480 ≤ m then 3 else
      if 240 ≤ m then 2 else if 0 < m then 1 else 0) := rfl

/-- C1 amended: for every NONEMPTY input (the empty input yields an empty
heatmap), `heatmapData` has exactly 28 entries; the entry at index `k` is the
calendar day `k` steps after the oldest one, so the list is ordered oldest
first and ends on the invocation date (the UTC calendar day of the clock
reading); its minutes are the day's total (0 when the day has no bucket) and
its level is the highest threshold met: 4 if at least 600 minutes, else 3 if
at least 480, else 2 if at least 240, else 1 if positive, else 0. -/
theorem c1_heatmap_amended (sessions a : List Session) (t : ℚ) (n z : Int)
    (hne : sessions ≠ []) :
    ((useAnalytics sessions a t n z).heatmapData).length = 28
    ∧ ∀ k, k < 28 →
        ((useAnalytics sessions a t n z).heatmapData)[k]?
          = some { date := utcDayOf n - 27 + (k : Int),
                   minutes := dailyTotals sessions (utcDayOf n - 27 + (k : Int)),
                   level := if 600 ≤ dailyTotals sessions (utcDayOf n - 27 + (k : Int)) then 4
                     else if 480 ≤ dailyTotals sessions (utcDayOf n - 27 + (k : Int)) then 3
                     else if 240 ≤ dailyTotals sessions (utcDayOf n - 27 + (k : Int)) then 2
                     else if 0 < dailyTotals sessions (utcDayOf n - 27 + (k : Int)) then 1
                     else 0,
                   dayOfWeek := jsGetDay (n - (27 - (k : Int)) * 1440) z } := by
  have h1 : (useAnalytics sessions a t n z).heatmapData = heatmapDataOf sessions n z := by
    simp [useAnalytics, if_neg hne]
  constructor
  · rw [h1]
    unfold heatmapDataOf
    rw [List.length_map, List.length_range]
  · intro k hk
    rw [h1]
    unfold heatmapDataOf
    rw [List.getElem?_map, List.getElem?_range hk, Option.map_some']
    have hday : utcDayOf (n - (27 - (k : Int)) * 1440) = utcDayOf n - 27 + (k : Int) := by
      rw [show (27 : Int) - (k : Int) = -((k : Int) - 27) by ring]
      rw [show n - -((k : Int) - 27) * 1440 = n - ((27 : Int) - (k : Int)) * 1440 by ring]
      rw [utcDayOf_sub_days]; ring
    simp only [hday, heatLevel_eq]

/-- C1 amended, witness: a concrete nonempty input satisfying the hypothesis. -/
theorem c1_heatmap_amended_witness :
    ({ date := 4, duration_minutes := 400 } : Session) :: [] ≠ []
    ∧ (((useAnalytics [{ date := 4, duration_minutes := 400 }] [] 200 6150 330).heatmapData).length = 28
      ∧ ∀ k, k < 28 →
        ((useAnalytics [{ date := 4, duration_minutes := 400 }] [] 200 6150 330).heatmapData)[k]?
          = some { date := utcDayOf 6150 - 27 + (k : Int),
                   minutes := dailyTotals [{ date := 4, duration_minutes := 400 }] (utcDayOf 6150 - 27 + (k : Int)),
                   level := if 600 ≤ dailyTotals [{ date := 4, duration_minutes := 400 }] (utcDayOf 6150 - 27 + (k : Int)) then 4
                     else if 480 ≤ dailyTotals [{ date := 4, duration_minutes := 400 }] (utcDayOf 6150 - 27 + (k : Int)) then 3
                     else if 240 ≤ dailyTotals [{ date := 4, duration_minutes := 400 }] (utcDayOf 6150 - 27 + (k : Int)) then 2
                     else if 0 < dailyTotals [{ date := 4, duration_minutes := 400 }] (utcDayOf 6150 - 27 + (k : Int)) then 1
                     else 0,
                   dayOfWeek := jsGetDay (6150 - (27 - (k : Int)) * 1440) 330 }) :=
  ⟨by decide, c1_heatmap_amended [{ date := 4, duration_minutes := 400 }] [] 200 6150 330 (by decide)⟩

/-! ### C5: the badges -/

/-- C5 counterexample: the claim promises exactly 4 badge records for every
input, but on the empty sessions list the engine's early return produces an
empty `badges` sequence. -/
theorem c5_counterexample :
    ((useAnalytics [] [] 200 6150 330).badges).length ≠ 4 := by decide

/-- C5 amended: for every NONEMPTY input (the empty input yields no badges),
`badges` has exactly 4 records with ids early-bird, consistency, overtime,
streak in that order; Early Bird is earned iff at least 5 sessions have a
punch-in local hour before 9 (progress `min(count,5)`, target 5, no gold
key); Consistency King is earned and gold iff at least 10 days total at
least 480 minutes (progress `min(count,10)`, target 10); Overtime Warrior is
earned iff at least 3 days total at least 600 minutes (progress
`min(count,3)`, target 3, no gold key); Streak Master is earned and gold iff
the streak is at least 7 (progress `min(streak,7)`, target 7). -/
theorem c5_badges_amended (sessions a : List Session) (t : ℚ) (n z : Int)
    (hne : sessions ≠ []) :
    ((useAnalytics sessions a t n z).badges).map Badge.id
      = ["early-bird", "consistency", "overtime", "streak"]
    ∧ ((useAnalytics sessions a t n z).badges).map Badge.earned
      = [decide (5 ≤ earlyStarts sessions z), decide (10 ≤ consistentDays sessions),
         decide (3 ≤ overtimeDays sessions), decide (7 ≤ streakOf sessions)]
    ∧ ((useAnalytics sessions a t n z).badges).map Badge.gold
      = [none, some (decide (10 ≤ consistentDays sessions)), none,
         some (decide (7 ≤ streakOf sessions))]
    ∧ ((useAnalytics sessions a t n z).badges).map Badge.progress
      = [min (earlyStarts sessions z) 5, min (consistentDays sessions) 10,
         min (overtimeDays sessions) 3, min (streakOf sessions) 7]
    ∧ ((useAnalytics sessions a t n z).badges).map Badge.target = [5, 10, 3, 7] := by
  simp [useAnalytics, if_neg hne, badgesOf]

/-- C5 amended, witness: a concrete nonempty input satisfying the hypothesis. -/
theorem c5_badges_amended_witness :
    ({ date := 4, duration_minutes := 400 } : Session) :: [] ≠ []
    ∧ (((useAnalytics [{ date := 4, duration_minutes := 400 }] [] 200 6150 330).badges).map Badge.id
        = ["early-bird", "consistency", "overtime", "streak"]
      ∧ ((useAnalytics [{ date := 4, duration_minutes := 400 }] [] 200 6150 330).badges).map Badge.earned
        = [decide (5 ≤ earlyStarts [{ date := 4, duration_minutes := 400 }] 330),
           decide (10 ≤ consistentDays [{ date := 4, duration_minutes := 400 }]),
           decide (3 ≤ overtimeDays [{ date := 4, duration_minutes := 400 }]),
           decide (7 ≤ streakOf [{ date := 4, duration_minutes := 400 }])]
      ∧ ((useAnalytics [{ date := 4, duration_minutes := 400 }] [] 200 6150 330).badges).map Badge.gold
        = [none, some (decide (10 ≤ consistentDays [{ date := 4, duration_minutes := 400 }])), none,
           some (decide (7 ≤ streakOf [{ date := 4, duration_minutes := 400 }]))]
      ∧ ((useAnalytics [{ date := 4, duration_minutes := 400 }] [] 200 6150 330).badges).map Badge.progress
        = [min (earlyStarts [{ date := 4, duration_minutes := 400 }] 330) 5,
           min (consistentDays [{ date := 4, duration_minutes := 400 }]) 10,
           min (overtimeDays [{ date := 4, duration_minutes := 400 }]) 3,
           min (streakOf [{ date := 4, duration_minutes := 400 }]) 7]
      ∧ ((useAnalytics [{ date := 4, duration_minutes := 400 }] [] 200 6150 330).badges).map Badge.target
        = [5, 10, 3, 7]) :=
  ⟨by decide, c5_badges_amended [{ date := 4, duration_minutes := 400 }] [] 200 6150 330 (by decide)⟩

/-! ### C9: determinism and the hidden clock -/

/-- C9 counterexample: with identical `(sessions, targetHours)` but different
clock readings (here ten days apart) the engine returns different results
(the heatmap window follows the clock), so the output is not a function of
`(sessions, targetHours)` alone. -/
theorem c9_counterexample :
    useAnalytics [{ date := 4, duration_minutes := 400 }] [] 200 6150 330
      ≠ useAnalytics [{ date := 4, duration_minutes := 400 }] [] 200 20550 330 := by
  intro h
  exact absurd (congrArg AnalyticsResult.heatmapData h) (by decide)

/-- C9 amended: the engine is a deterministic pure function of
`(sessions, targetHours, clock reading, timezone)`; memoizing on
`(sessions, targetHours)` alone is unsound because `heatmapData`,
`weekComparison` and the insights read the clock, but every other output
field (streak, weeklyScore, badges, avgStartTime, avgEndTime, bestDay,
worstDay, productiveHours) is independent of the clock reading. -/
theorem c9_determinism_amended (sessions a : List Session) (t : ℚ) (z n₁ n₂ : Int) :
    (useAnalytics sessions a t n₁ z).streak = (useAnalytics sessions a t n₂ z).streak
    ∧ (useAnalytics sessions a t n₁ z).weeklyScore
        = (useAnalytics sessions a t n₂ z).weeklyScore
    ∧ (useAnalytics sessions a t n₁ z).badges = (useAnalytics sessions a t n₂ z).badges
    ∧ (useAnalytics sessions a t n₁ z).avgStartTime
        = (useAnalytics sessions a t n₂ z).avgStartTime
    ∧ (useAnalytics sessions a t n₁ z).avgEndTime
        = (useAnalytics sessions a t n₂ z).avgEndTime
    ∧ (useAnalytics sessions a t n₁ z).bestDay = (useAnalytics sessions a t n₂ z).bestDay
    ∧ (useAnalytics sessions a t n₁ z).worstDay = (useAnalytics sessions a t n₂ z).worstDay
    ∧ (useAnalytics sessions a t n₁ z).productiveHours
        = (useAnalytics sessions a t n₂ z).productiveHours := by
  by_cases h : sessions = [] <;> simp [useAnalytics, h]

/-! ### C3: the weekly score -/

/-- Every day total is non-negative when every duration is. -/
lemma dailyTotals_nonneg (sessions : List Session)
    (h : ∀ s ∈ sessions, 0 ≤ s.duration_minutes) (d : Int) :
    0 ≤ dailyTotals sessions d := by
  unfold dailyTotals
  apply List.sum_nonneg
  intro x hx
  simp only [List.mem_map] at hx
  obtain ⟨s, hs, rfl⟩ := hx
  exact h s (List.mem_of_mem_filter hs)

/-- The month total is non-negative when every duration is. -/
lemma totalMinutesThisMonth_nonneg (sessions : List Session)
    (h : ∀ s ∈ sessions, 0 ≤ s.duration_minutes) :
    0 ≤ totalMinutesThisMonth sessions := by
  unfold totalMinutesThisMonth
  apply List.sum_nonneg
  intro x hx
  simp only [List.mem_map, dailyEntries] at hx
  obtain ⟨p, hp, rfl⟩ := hx
  obtain ⟨d, _, rfl⟩ := hp
  exact dailyTotals_nonneg sessions h d

/-- `jsRound` of a non-negative value is non-negative. -/
lemma jsRound_nonneg (q : ℚ) (h : 0 ≤ q) : 0 ≤ jsRound q := by
  unfold jsRound
  rw [Int.le_floor]
  push_cast
  linarith

/-- `jsRound` of a value at most 100 is at most 100. -/
lemma jsRound_le_100 (q : ℚ) (h : q ≤ 100) : jsRound q ≤ 100 := by
  unfold jsRound
  have : jsRound q < 101 := by
    unfold jsRound
    rw [Int.floor_lt]
    push_cast
    linarith
  unfold jsRound at this
  omega

/-- The progress component lies in `[0, 50]` for non-negative month totals
and a positive target. -/
lemma progressScore_bounds (sessions : List Session) (t : ℚ)
    (h0 : 0 ≤ totalMinutesThisMonth sessions) (ht : 0 < t) :
    0 ≤ progressScore sessions t ∧ progressScore sessions t ≤ 50 := by
  unfold progressScore targetMinutes
  constructor
  · apply le_min _ (by norm_num)
    apply mul_nonneg _ (by norm_num)
    apply div_nonneg (by exact_mod_cast h0) (by linarith)
  · exact min_le_right _ _

/-- The consistency component lies in `[0, 30]`. -/
lemma consistencyScore_bounds (sessions : List Session) :
    0 ≤ consistencyScore sessions ∧ consistencyScore sessions ≤ 30 := by
  unfold consistencyScore
  constructor
  · apply le_min _ (by norm_num)
    positivity
  · exact min_le_right _ _

/-- The streak component lies in `[0, 20]`. -/
lemma streakScore_bounds (sessions : List Session) :
    0 ≤ streakScoreOf sessions ∧ streakScoreOf sessions ≤ 20 := by
  unfold streakScoreOf
  constructor
  · apply le_min _ (by norm_num)
    positivity
  · exact min_le_right _ _

/-- The result's `weeklyScore` equals `weeklyScoreOf` on every input
(the early return for the empty list agrees with the formula). -/
lemma weeklyScore_eq (sessions a : List Session) (t : ℚ) (n z : Int) :
    (useAnalytics sessions a t n z).weeklyScore = weeklyScoreOf sessions t := by
  by_cases h : sessions = []
  · subst h
    have h1 : totalMinutesThisMonth [] = 0 := rfl
    have h2 : consistentDays [] = 0 := rfl
    have h3 : streakOf [] = 0 := rfl
    simp only [useAnalytics, if_pos rfl, weeklyScoreOf, progressScore, consistencyScore,
      streakScoreOf, targetMinutes, h1, h2, h3]
    norm_num [jsRound]
  · simp [useAnalytics, if_neg h]

/-- C3: for every input with non-negative durations and a positive target,
`weeklyScore` is the rounded sum of the three capped components and is an
integer in `[0, 100]`; on the empty input it is 0 (the formula also gives 0). -/
theorem c3_weeklyScore (sessions a : List Session) (t : ℚ) (n z : Int)
    (hdur : ∀ s ∈ sessions, 0 ≤ s.duration_minutes) (ht : 0 < t) :
    (useAnalytics sessions a t n z).weeklyScore
      = jsRound (min ((totalMinutesThisMonth sessions : ℚ) / (t * 60) * 50) 50
          + min ((consistentDays sessions : ℚ) / 15 * 30) 30
          + min ((streakOf sessions : ℚ) / 7 * 20) 20)
    ∧ 0 ≤ (useAnalytics sessions a t n z).weeklyScore
    ∧ (useAnalytics sessions a t n z).weeklyScore ≤ 100 := by
  have heq := weeklyScore_eq sessions a t n z
  have hp := progressScore_bounds sessions t (totalMinutesThisMonth_nonneg sessions hdur) ht
  have hc := consistencyScore_bounds sessions
  have hs := streakScore_bounds sessions
  refine ⟨heq, ?_, ?_⟩
  · rw [heq]
    exact jsRound_nonneg _ (by linarith [hp.1, hc.1, hs.1])
  · rw [heq]
    exact jsRound_le_100 _ (by linarith [hp.2, hc.2, hs.2])

/-- C3 witness: a concrete input satisfying both hypotheses. -/
theorem c3_weeklyScore_witness :
    (∀ s ∈ [({ date := 4, duration_minutes := 400 } : Session)], 0 ≤ s.duration_minutes)
    ∧ (0 : ℚ) < 200
    ∧ ((useAnalytics [{ date := 4, duration_minutes := 400 }] [] 200 6150 330).weeklyScore
        = jsRound (min ((totalMinutesThisMonth [{ date := 4, duration_minutes := 400 }] : ℚ) / (200 * 60) * 50) 50
            + min ((consistentDays [{ date := 4, duration_minutes := 400 }] : ℚ) / 15 * 30) 30
            + min ((streakOf [{ date := 4, duration_minutes := 400 }] : ℚ) / 7 * 20) 20)
      ∧ 0 ≤ (useAnalytics [{ date := 4, duration_minutes := 400 }] [] 200 6150 330).weeklyScore
      ∧ (useAnalytics [{ date := 4, duration_minutes := 400 }] [] 200 6150 330).weeklyScore ≤ 100) :=
  ⟨by decide, by norm_num,
    c3_weeklyScore [{ date := 4, duration_minutes := 400 }] [] 200 6150 330
      (by decide) (by norm_num)⟩

/-! ### C7: the week-over-week comparison -/

/-- The week accumulation fold computes the two filtered sums. -/
lemma weekMinutes_foldl_spec (n z : Int) (l : List (Int × Int)) (acc : Int × Int) :
    l.foldl (weekStep n z) acc
      = (acc.1 + ((l.filter (fun p => decide (thisWeekStart n z ≤ p.1 * 1440))).map
            Prod.snd).sum,
         acc.2 + ((l.filter (fun p => decide (lastWeekStart n z ≤ p.1 * 1440
            ∧ p.1 * 1440 < thisWeekStart n z))).map Prod.snd).sum) := by
  induction l generalizing acc with
  | nil => simp
  | cons p tl ih =>
    rw [List.foldl_cons, ih]
    unfold weekStep
    by_cases h1 : thisWeekStart n z ≤ p.1 * 1440
    · have h2 : ¬(lastWeekStart n z ≤ p.1 * 1440 ∧ p.1 * 1440 < thisWeekStart n z) := by
        omega
      simp [List.filter_cons, h1, h2, Prod.ext_iff] <;> omega
    · by_cases h2 : lastWeekStart n z ≤ p.1 * 1440 ∧ p.1 * 1440 < thisWeekStart n z
      · simp [List.filter_cons, h1, h2, Prod.ext_iff] <;> omega
      · simp [List.filter_cons, h1, h2, Prod.ext_iff] <;> omega

/-- C7 counterexample: at a Monday-noon-IST clock reading with one bucket on
the most recent Sunday (100 minutes) and one on Monday (200 minutes), the
claim's calendar-window formula gives 0 (the Sunday counts as this week and
leaves last week empty), but the engine returns 100: the Sunday bucket's
UTC-midnight instant is before `thisWeekStart` (Sunday at the preserved
time of day), so the engine counts it in LAST week. -/
theorem c7_counterexample :
    (useAnalytics [{ date := 3, duration_minutes := 100 },
        { date := 4, duration_minutes := 200 }] [] 200 6150 330).weekComparison = 100
    ∧ specWeekComparison [{ date := 3, duration_minutes := 100 },
        { date := 4, duration_minutes := 200 }] 6150 330 = 0
    ∧ (useAnalytics [{ date := 3, duration_minutes := 100 },
        { date := 4, duration_minutes := 200 }] [] 200 6150 330).weekComparison
      ≠ specWeekComparison [{ date := 3, duration_minutes := 100 },
        { date := 4, duration_minutes := 200 }] 6150 330 := by
  have h1 : (useAnalytics [{ date := 3, duration_minutes := 100 },
      { date := 4, duration_minutes := 200 }] [] 200 6150 330).weekComparison = 100 := by
    have hwm : weekMinutes [{ date := 3, duration_minutes := 100 },
        { date := 4, duration_minutes := 200 }] 6150 330 = (200, 100) := by decide
    have hne : ([{ date := 3, duration_minutes := 100 },
        { date := 4, duration_minutes := 200 }] : List Session) ≠ [] := by decide
    simp only [useAnalytics, if_neg hne, weekComparisonOf, hwm]
    norm_num [jsRound]
  have h2 : specWeekComparison [{ date := 3, duration_minutes := 100 },
      { date := 4, duration_minutes := 200 }] 6150 330 = 0 := by decide
  exact ⟨h1, h2, by rw [h1, h2]; decide⟩

/-- C7 amended: `weekComparison` is `round((thisWeek - lastWeek)/lastWeek*100)`
when `lastWeek > 0` and 0 otherwise, where `thisWeek` sums the day totals of
buckets whose UTC-midnight instant is at or after `thisWeekStart` (the clock
reading moved back by its local weekday number of days, local time of day
preserved) and `lastWeek` those in the preceding 7-day instant window; a
bucket dated on the most recent Sunday therefore counts toward this week
exactly when the local time of day of the clock reading is at most the UTC
offset (for IST, at or before 05:30 local), and otherwise toward last week. -/
theorem c7_weekComparison_amended (sessions a : List Session) (t : ℚ) (n z : Int) :
    ((useAnalytics sessions a t n z).weekComparison =
      if 0 < (((dailyEntries sessions).filter (fun p => decide (lastWeekStart n z ≤ p.1 * 1440
          ∧ p.1 * 1440 < thisWeekStart n z))).map Prod.snd).sum then
        jsRound ((((((dailyEntries sessions).filter (fun p =>
              decide (thisWeekStart n z ≤ p.1 * 1440))).map Prod.snd).sum : ℚ)
            - ((((dailyEntries sessions).filter (fun p => decide (lastWeekStart n z ≤ p.1 * 1440
              ∧ p.1 * 1440 < thisWeekStart n z))).map Prod.snd).sum : ℚ))
          / ((((dailyEntries sessions).filter (fun p => decide (lastWeekStart n z ≤ p.1 * 1440
              ∧ p.1 * 1440 < thisWeekStart n z))).map Prod.snd).sum : ℚ) * 100)
      else 0)
    ∧ (thisWeekStart n z ≤ ((n + z) / 1440 - jsGetDay n z) * 1440
        ↔ (n + z) % 1440 ≤ z) := by
  constructor
  · have hw : weekMinutes sessions n z
        = ((((dailyEntries sessions).filter (fun p =>
              decide (thisWeekStart n z ≤ p.1 * 1440))).map Prod.snd).sum,
           (((dailyEntries sessions).filter (fun p => decide (lastWeekStart n z ≤ p.1 * 1440
              ∧ p.1 * 1440 < thisWeekStart n z))).map Prod.snd).sum) := by
      unfold weekMinutes
      rw [weekMinutes_foldl_spec]
      simp
    by_cases h : sessions = []
    · subst h
      simp [useAnalytics, dailyEntries, bucketDates]
    · simp only [useAnalytics, if_neg h, weekComparisonOf, hw]
  · unfold thisWeekStart jsGetDay
    omega


/-! ### C6: monotonicity in a single session's duration -/

/-- Changing one session's duration leaves the bucket keys unchanged. -/
lemma bucketDates_update (l1 l2 : List Session) (s : Session) (d' : Int) :
    bucketDates (l1 ++ { s with duration_minutes := d' } :: l2)
      = bucketDates (l1 ++ s :: l2) := by
  unfold bucketDates
  simp

/-- Increasing one session's duration can only increase any day total. -/
lemma dailyTotals_update_le (l1 l2 : List Session) (s : Session) (d' : Int)
    (hd : s.duration_minutes ≤ d') (d : Int) :
    dailyTotals (l1 ++ s :: l2) d
      ≤ dailyTotals (l1 ++ { s with duration_minutes := d' } :: l2) d := by
  unfold dailyTotals
  simp only [List.filter_append, List.filter_cons, List.map_append, List.sum_append]
  by_cases h : s.date = d
  · simp [h]
    omega
  · simp [h]

/-- Replacing one element by one on which the predicate agrees preserves the
length of the filtered list. -/
lemma filter_length_update (p : Session → Bool) (l1 l2 : List Session) (s s' : Session)
    (h : p s' = p s) :
    ((l1 ++ s' :: l2).filter p).length = ((l1 ++ s :: l2).filter p).length := by
  simp only [List.filter_append, List.filter_cons, List.length_append, h]
  by_cases hp : p s = true <;> simp [hp]

/-- The early-start count ignores durations. -/
lemma earlyStarts_update (l1 l2 : List Session) (s : Session) (d' z : Int) :
    earlyStarts (l1 ++ { s with duration_minutes := d' } :: l2) z
      = earlyStarts (l1 ++ s :: l2) z :=
  filter_length_update _ l1 l2 s _ rfl

/-- Counting values at least `c` is monotone under a pointwise increase. -/
lemma filter_ge_length_mono (c : Int) (D : List Int) (f g : Int → Int)
    (h : ∀ d ∈ D, f d ≤ g d) :
    ((D.map f).filter (fun m => decide (c ≤ m))).length
      ≤ ((D.map g).filter (fun m => decide (c ≤ m))).length := by
  induction D with
  | nil => simp
  | cons d tl ih =>
    have hd := h d (by simp)
    have ihx := ih fun x hx => h x (List.mem_cons_of_mem _ hx)
    simp only [List.map_cons, List.filter_cons]
    by_cases hf : c ≤ f d
    · have hg : c ≤ g d := le_trans hf hd
      simp [hf, hg, List.length_cons]
      all_goals omega
    · by_cases hg : c ≤ g d
      · simp [hf, hg, List.length_cons]
        all_goals omega
      · simp [hf, hg]
        all_goals omega

/-- `Object.values(dailyTotals)` are the day totals of the bucket keys. -/
lemma values_eq (sessions : List Session) :
    (dailyEntries sessions).map Prod.snd
      = (bucketDates sessions).map (dailyTotals sessions) := by
  simp [dailyEntries, List.map_map]

/-- `jsRound` is monotone. -/
lemma jsRound_mono {a b : ℚ} (h : a ≤ b) : jsRound a ≤ jsRound b :=
  Int.floor_le_floor (by linarith)

/-- C6: increasing one session's duration (all else fixed, positive target as
the interface requires) never decreases the weekly score, the streak, or any
of the four badge progress counters. -/
theorem c6_monotonicity (l1 l2 : List Session) (s : Session) (d' : Int)
    (a : List Session) (t : ℚ) (n z : Int)
    (hd : s.duration_minutes ≤ d') (ht : 0 < t) :
    (useAnalytics (l1 ++ s :: l2) a t n z).weeklyScore
      ≤ (useAnalytics (l1 ++ { s with duration_minutes := d' } :: l2) a t n z).weeklyScore
    ∧ (useAnalytics (l1 ++ s :: l2) a t n z).streak
      ≤ (useAnalytics (l1 ++ { s with duration_minutes := d' } :: l2) a t n z).streak
    ∧ List.Forall₂ (fun b1 b2 => b1.progress ≤ b2.progress)
        (useAnalytics (l1 ++ s :: l2) a t n z).badges
        (useAnalytics (l1 ++ { s with duration_minutes := d' } :: l2) a t n z).badges := by
  have hne1 : l1 ++ s :: l2 ≠ [] := by simp
  have hne2 : l1 ++ { s with duration_minutes := d' } :: l2 ≠ [] := by simp
  have hpt : ∀ d, dailyTotals (l1 ++ s :: l2) d
      ≤ dailyTotals (l1 ++ { s with duration_minutes := d' } :: l2) d :=
    dailyTotals_update_le l1 l2 s d' hd
  have hstreak : streakOf (l1 ++ s :: l2)
      ≤ streakOf (l1 ++ { s with duration_minutes := d' } :: l2) := by
    unfold streakOf sortedDates
    rw [bucketDates_update l1 l2 s d']
    exact streakWalk_mono _ _ _ (fun d _ => hpt d)
  have hcons : consistentDays (l1 ++ s :: l2)
      ≤ consistentDays (l1 ++ { s with duration_minutes := d' } :: l2) := by
    unfold consistentDays
    rw [values_eq, values_eq, bucketDates_update l1 l2 s d']
    exact filter_ge_length_mono 480 _ _ _ (fun d _ => hpt d)
  have hover : overtimeDays (l1 ++ s :: l2)
      ≤ overtimeDays (l1 ++ { s with duration_minutes := d' } :: l2) := by
    unfold overtimeDays
    rw [values_eq, values_eq, bucketDates_update l1 l2 s d']
    exact filter_ge_length_mono 600 _ _ _ (fun d _ => hpt d)
  have htot : totalMinutesThisMonth (l1 ++ s :: l2)
      ≤ totalMinutesThisMonth (l1 ++ { s with duration_minutes := d' } :: l2) := by
    unfold totalMinutesThisMonth
    rw [values_eq, values_eq, bucketDates_update l1 l2 s d']
    exact List.sum_le_sum (fun d _ => hpt d)
  refine ⟨?_, ?_, ?_⟩
  · simp only [useAnalytics, if_neg hne1, if_neg hne2]
    apply jsRound_mono
    have h1 : progressScore (l1 ++ s :: l2) t
        ≤ progressScore (l1 ++ { s with duration_minutes := d' } :: l2) t := by
      unfold progressScore targetMinutes
      apply min_le_min _ le_rfl
      have hc : (totalMinutesThisMonth (l1 ++ s :: l2) : ℚ)
          ≤ (totalMinutesThisMonth (l1 ++ { s with duration_minutes := d' } :: l2) : ℚ) := by
        exact_mod_cast htot
      have ht60 : (0 : ℚ) < t * 60 := by linarith
      gcongr
    have h2 : consistencyScore (l1 ++ s :: l2)
        ≤ consistencyScore (l1 ++ { s with duration_minutes := d' } :: l2) := by
      unfold consistencyScore
      apply min_le_min _ le_rfl
      have hc : (consistentDays (l1 ++ s :: l2) : ℚ)
          ≤ (consistentDays (l1 ++ { s with duration_minutes := d' } :: l2) : ℚ) := by
        exact_mod_cast hcons
      gcongr
    have h3 : streakScoreOf (l1 ++ s :: l2)
        ≤ streakScoreOf (l1 ++ { s with duration_minutes := d' } :: l2) := by
      unfold streakScoreOf
      apply min_le_min _ le_rfl
      have hc : (streakOf (l1 ++ s :: l2) : ℚ)
          ≤ (streakOf (l1 ++ { s with duration_minutes := d' } :: l2) : ℚ) := by
        exact_mod_cast hstreak
      gcongr
    linarith
  · simp only [useAnalytics, if_neg hne1, if_neg hne2]
    exact hstreak
  · simp only [useAnalytics, if_neg hne1, if_neg hne2, badgesOf]
    refine List.Forall₂.cons ?_ (List.Forall₂.cons ?_ (List.Forall₂.cons ?_
      (List.Forall₂.cons ?_ List.Forall₂.nil)))
    · simp only
      rw [earlyStarts_update l1 l2 s d' z]
    · exact min_le_min hcons le_rfl
    · exact min_le_min hover le_rfl
    · exact min_le_min hstreak le_rfl

/-- C6 witness: a concrete instance (one session raised from 100 to 400
minutes) satisfying both hypotheses. -/
theorem c6_monotonicity_witness :
    (({ date := 4, duration_minutes := 100 } : Session).duration_minutes ≤ 400
      ∧ (0 : ℚ) < 200)
    ∧ ((useAnalytics ([] ++ ({ date := 4, duration_minutes := 100 } : Session) :: [])
          [] 200 6150 330).weeklyScore
        ≤ (useAnalytics ([] ++ { ({ date := 4, duration_minutes := 100 } : Session) with
            duration_minutes := 400 } :: []) [] 200 6150 330).weeklyScore
      ∧ (useAnalytics ([] ++ ({ date := 4, duration_minutes := 100 } : Session) :: [])
          [] 200 6150 330).streak
        ≤ (useAnalytics ([] ++ { ({ date := 4, duration_minutes := 100 } : Session) with
            duration_minutes := 400 } :: []) [] 200 6150 330).streak
      ∧ List.Forall₂ (fun b1 b2 => b1.progress ≤ b2.progress)
          (useAnalytics ([] ++ ({ date := 4, duration_minutes := 100 } : Session) :: [])
            [] 200 6150 330).badges
          (useAnalytics ([] ++ { ({ date := 4, duration_minutes := 100 } : Session) with
            duration_minutes := 400 } :: []) [] 200 6150 330).badges) :=
  ⟨⟨by decide, by norm_num⟩,
    c6_monotonicity [] [] { date := 4, duration_minutes := 100 } 400 [] 200 6150 330
      (by decide) (by norm_num)⟩

/-! ### C8: best and worst weekday -/

/-- `ltOpt` against `Infinity` is always true. -/
lemma ltOpt_none (a : ℚ) : ltOpt a none = true := rfl

/-- `ltOpt` against a finite bound is the strict comparison. -/
lemma ltOpt_some (a b : ℚ) : ltOpt a (some b) = true ↔ a < b := by simp [ltOpt]

/-- A smaller value also beats any bound a larger value beats. -/
lemma ltOpt_trans {a b : ℚ} {q : Option ℚ} (h1 : a < b) (h2 : ltOpt b q = true) :
    ltOpt a q = true := by
  cases q with
  | none => rfl
  | some c =>
    rw [ltOpt_some] at h2 ⊢
    linarith

/-- The best fields of a `bwStep` iteration evolve by `bestStep`. -/
lemma bwStep_best (sessions : List Session) (tz : Int) (st : BWState) (w : Nat) :
    ((bwStep sessions tz st w).bestAvg, (bwStep sessions tz st w).bestDay)
      = bestStep sessions tz (st.bestAvg, st.bestDay) w := by
  unfold bwStep bestStep
  by_cases h0 : 0 < (dayTotalsFor sessions tz w).length
  · by_cases hb : st.bestAvg < weekdayMean sessions tz w
    · simp only [if_pos h0, if_pos hb, if_pos (And.intro h0 hb)]
      by_cases hw : ltOpt (weekdayMean sessions tz w) st.worstAvg = true
      · rw [if_pos hw]
      · rw [if_neg hw]
    · have hnot : ¬(0 < (dayTotalsFor sessions tz w).length
          ∧ st.bestAvg < weekdayMean sessions tz w) := fun hc => hb hc.2
      simp only [if_pos h0, if_neg hb, if_neg hnot]
      by_cases hw : ltOpt (weekdayMean sessions tz w) st.worstAvg = true
      · rw [if_pos hw]
      · rw [if_neg hw]
  · have hnot : ¬(0 < (dayTotalsFor sessions tz w).length
        ∧ st.bestAvg < weekdayMean sessions tz w) := fun hc => h0 hc.1
    simp only [if_neg h0, if_neg hnot]

/-- The worst fields of a `bwStep` iteration evolve by `worstStep`. -/
lemma bwStep_worst (sessions : List Session) (tz : Int) (st : BWState) (w : Nat) :
    ((bwStep sessions tz st w).worstAvg, (bwStep sessions tz st w).worstDay)
      = worstStep sessions tz (st.worstAvg, st.worstDay) w := by
  unfold bwStep worstStep
  by_cases h0 : 0 < (dayTotalsFor sessions tz w).length
  · by_cases hb : st.bestAvg < weekdayMean sessions tz w
    · simp only [if_pos h0, if_pos hb]
      by_cases hw : ltOpt (weekdayMean sessions tz w) st.worstAvg = true
      · rw [if_pos hw, if_pos (And.intro h0 hw)]
      · rw [if_neg hw, if_neg (fun hc : _ ∧ _ => hw hc.2)]
    · simp only [if_pos h0, if_neg hb]
      by_cases hw : ltOpt (weekdayMean sessions tz w) st.worstAvg = true
      · rw [if_pos hw, if_pos (And.intro h0 hw)]
      · rw [if_neg hw, if_neg (fun hc : _ ∧ _ => hw hc.2)]
  · have hnot : ¬(0 < (dayTotalsFor sessions tz w).length
        ∧ ltOpt (weekdayMean sessions tz w) st.worstAvg = true) := fun hc => h0 hc.1
    simp only [if_neg h0, if_neg hnot]

/-- The best fields of the whole loop evolve by folding `bestStep`. -/
lemma bwFoldl_best (sessions : List Session) (tz : Int) (ws : List Nat) (st : BWState) :
    ((ws.foldl (bwStep sessions tz) st).bestAvg, (ws.foldl (bwStep sessions tz) st).bestDay)
      = ws.foldl (bestStep sessions tz) (st.bestAvg, st.bestDay) := by
  induction ws generalizing st with
  | nil => rfl
  | cons w ws ih =>
    rw [List.foldl_cons, List.foldl_cons, ih, bwStep_best]

/-- The worst fields of the whole loop evolve by folding `worstStep`. -/
lemma bwFoldl_worst (sessions : List Session) (tz : Int) (ws : List Nat) (st : BWState) :
    ((ws.foldl (bwStep sessions tz) st).worstAvg, (ws.foldl (bwStep sessions tz) st).worstDay)
      = ws.foldl (worstStep sessions tz) (st.worstAvg, st.worstDay) := by
  induction ws generalizing st with
  | nil => rfl
  | cons w ws ih =>
    rw [List.foldl_cons, List.foldl_cons, ih, bwStep_worst]

/-- Folding `bestStep` over a strictly increasing weekday list either leaves
the accumulator untouched (when no observed mean beats it) or ends at the
first observed weekday attaining the strict maximum above the accumulator. -/
lemma bestFold_spec (sessions : List Session) (tz : Int) :
    ∀ (ws : List Nat), ws.Pairwise (· < ·) → ∀ (b : ℚ) (o : Option String),
    (ws.foldl (bestStep sessions tz) (b, o) = (b, o)
      ∧ ∀ w ∈ ws, 0 < (dayTotalsFor sessions tz w).length → weekdayMean sessions tz w ≤ b)
    ∨ (∃ w ∈ ws, 0 < (dayTotalsFor sessions tz w).length
        ∧ ws.foldl (bestStep sessions tz) (b, o)
            = (weekdayMean sessions tz w, some (dayNames.getD w ""))
        ∧ b < weekdayMean sessions tz w
        ∧ (∀ u ∈ ws, 0 < (dayTotalsFor sessions tz u).length
            → weekdayMean sessions tz u ≤ weekdayMean sessions tz w)
        ∧ (∀ u ∈ ws, 0 < (dayTotalsFor sessions tz u).length → u < w
            → weekdayMean sessions tz u < weekdayMean sessions tz w)) := by
  intro ws
  induction ws with
  | nil =>
    intro _ b o
    left
    exact ⟨rfl, by simp⟩
  | cons w ws ih =>
    intro hpw b o
    have hlt : ∀ u ∈ ws, w < u := (List.pairwise_cons.mp hpw).1
    have hpw' : ws.Pairwise (· < ·) := (List.pairwise_cons.mp hpw).2
    rw [List.foldl_cons]
    by_cases hcond : 0 < (dayTotalsFor sessions tz w).length
        ∧ b < weekdayMean sessions tz w
    · have hstep : bestStep sessions tz (b, o) w
          = (weekdayMean sessions tz w, some (dayNames.getD w "")) := by
        unfold bestStep
        rw [if_pos hcond]
      rw [hstep]
      rcases ih hpw' (weekdayMean sessions tz w) (some (dayNames.getD w "")) with
        ⟨heq, hall⟩ | ⟨u, hu, huo, heq, hbu, hall, hfirst⟩
      · right
        refine ⟨w, by simp, hcond.1, heq, hcond.2, ?_, ?_⟩
        · intro u hu huo
          rcases List.mem_cons.mp hu with rfl | hu'
          · exact le_refl _
          · exact hall u hu' huo
        · intro u hu huo hult
          rcases List.mem_cons.mp hu with rfl | hu'
          · exact absurd hult (lt_irrefl _)
          · exact absurd hult (by have := hlt u hu'; omega)
      · right
        refine ⟨u, List.mem_cons_of_mem _ hu, huo, heq, lt_trans hcond.2 hbu, ?_, ?_⟩
        · intro v hv hvo
          rcases List.mem_cons.mp hv with rfl | hv'
          · exact le_of_lt hbu
          · exact hall v hv' hvo
        · intro v hv hvo hvu
          rcases List.mem_cons.mp hv with rfl | hv'
          · exact hbu
          · exact hfirst v hv' hvo hvu
    · have hstep : bestStep sessions tz (b, o) w = (b, o) := by
        unfold bestStep
        rw [if_neg hcond]
      rw [hstep]
      rcases ih hpw' b o with ⟨heq, hall⟩ | ⟨u, hu, huo, heq, hbu, hall, hfirst⟩
      · left
        refine ⟨heq, ?_⟩
        intro u hu huo
        rcases List.mem_cons.mp hu with rfl | hu'
        · have h1 : ¬ b < weekdayMean sessions tz u := fun hx => hcond ⟨huo, hx⟩
          linarith
        · exact hall u hu' huo
      · right
        refine ⟨u, List.mem_cons_of_mem _ hu, huo, heq, hbu, ?_, ?_⟩
        · intro v hv hvo
          rcases List.mem_cons.mp hv with rfl | hv'
          · have h1 : ¬ b < weekdayMean sessions tz v := fun hx => hcond ⟨hvo, hx⟩
            linarith
          · exact hall v hv' hvo
        · intro v hv hvo hvu
          rcases List.mem_cons.mp hv with rfl | hv'
          · have h1 : ¬ b < weekdayMean sessions tz v := fun hx => hcond ⟨hvo, hx⟩
            linarith
          · exact hfirst v hv' hvo hvu

/-- Folding `worstStep` over a strictly increasing weekday list either leaves
the accumulator untouched (when no observed mean undercuts it) or ends at the
first observed weekday attaining the strict minimum below the accumulator. -/
lemma worstFold_spec (sessions : List Session) (tz : Int) :
    ∀ (ws : List Nat), ws.Pairwise (· < ·) → ∀ (q : Option ℚ) (o : Option String),
    (ws.foldl (worstStep sessions tz) (q, o) = (q, o)
      ∧ ∀ w ∈ ws, 0 < (dayTotalsFor sessions tz w).length
          → ltOpt (weekdayMean sessions tz w) q = false)
    ∨ (∃ w ∈ ws, 0 < (dayTotalsFor sessions tz w).length
        ∧ ws.foldl (worstStep sessions tz) (q, o)
            = (some (weekdayMean sessions tz w), some (dayNames.getD w ""))
        ∧ ltOpt (weekdayMean sessions tz w) q = true
        ∧ (∀ u ∈ ws, 0 < (dayTotalsFor sessions tz u).length
            → weekdayMean sessions tz w ≤ weekdayMean sessions tz u)
        ∧ (∀ u ∈ ws, 0 < (dayTotalsFor sessions tz u).length → u < w
            → weekdayMean sessions tz w < weekdayMean sessions tz u)) := by
  intro ws
  induction ws with
  | nil =>
    intro _ q o
    left
    exact ⟨rfl, by simp⟩
  | cons w ws ih =>
    intro hpw q o
    have hlt : ∀ u ∈ ws, w < u := (List.pairwise_cons.mp hpw).1
    have hpw' : ws.Pairwise (· < ·) := (List.pairwise_cons.mp hpw).2
    rw [List.foldl_cons]
    by_cases hcond : 0 < (dayTotalsFor sessions tz w).length
        ∧ ltOpt (weekdayMean sessions tz w) q = true
    · have hstep : worstStep sessions tz (q, o) w
          = (some (weekdayMean sessions tz w), some (dayNames.getD w "")) := by
        unfold worstStep
        rw [if_pos hcond]
      rw [hstep]
      rcases ih hpw' (some (weekdayMean sessions tz w)) (some (dayNames.getD w "")) with
        ⟨heq, hall⟩ | ⟨u, hu, huo, heq, hbu, hall, hfirst⟩
      · right
        refine ⟨w, by simp, hcond.1, heq, hcond.2, ?_, ?_⟩
        · intro u hu huo
          rcases List.mem_cons.mp hu with rfl | hu'
          · exact le_refl _
          · have hf := hall u hu' huo
            have hge : ¬ weekdayMean sessions tz u < weekdayMean sessions tz w := by
              intro hx
              rw [(ltOpt_some _ _).mpr hx] at hf
              simp at hf
            linarith
        · intro u hu huo hult
          rcases List.mem_cons.mp hu with rfl | hu'
          · exact absurd hult (lt_irrefl _)
          · exact absurd hult (by have := hlt u hu'; omega)
      · right
        have hum : weekdayMean sessions tz u < weekdayMean sessions tz w :=
          (ltOpt_some _ _).mp hbu
        refine ⟨u, List.mem_cons_of_mem _ hu, huo, heq,
          ltOpt_trans hum hcond.2, ?_, ?_⟩
        · intro v hv hvo
          rcases List.mem_cons.mp hv with rfl | hv'
          · exact le_of_lt hum
          · exact hall v hv' hvo
        · intro v hv hvo hvu
          rcases List.mem_cons.mp hv with rfl | hv'
          · exact hum
          · exact hfirst v hv' hvo hvu
    · have hstep : worstStep sessions tz (q, o) w = (q, o) := by
        unfold worstStep
        rw [if_neg hcond]
      rw [hstep]
      rcases ih hpw' q o with ⟨heq, hall⟩ | ⟨u, hu, huo, heq, hbu, hall, hfirst⟩
      · left
        refine ⟨heq, ?_⟩
        intro u hu huo
        rcases List.mem_cons.mp hu with rfl | hu'
        · cases hq : ltOpt (weekdayMean sessions tz u) q with
          | false => rfl
          | true => exact absurd ⟨huo, hq⟩ hcond
        · exact hall u hu' huo
      · right
        refine ⟨u, List.mem_cons_of_mem _ hu, huo, heq, hbu, ?_, ?_⟩
        · intro v hv hvo
          rcases List.mem_cons.mp hv with rfl | hv'
          · have hq : ltOpt (weekdayMean sessions tz v) q = false := by
              cases hq : ltOpt (weekdayMean sessions tz v) q with
              | false => rfl
              | true => exact absurd ⟨hvo, hq⟩ hcond
            cases q with
            | none => exact absurd hbu (by rw [ltOpt_none] at hq; simp at hq)
            | some c =>
              have h1 : ¬ weekdayMean sessions tz v < c := by
                intro hx
                rw [(ltOpt_some _ _).mpr hx] at hq
                simp at hq
              have h2 : weekdayMean sessions tz u < c := (ltOpt_some _ _).mp hbu
              linarith
          · exact hall v hv' hvo
        · intro v hv hvo hvu
          rcases List.mem_cons.mp hv with rfl | hv'
          · have hq : ltOpt (weekdayMean sessions tz v) q = false := by
              cases hq : ltOpt (weekdayMean sessions tz v) q with
              | false => rfl
              | true => exact absurd ⟨hvo, hq⟩ hcond
            cases q with
            | none => exact absurd hbu (by rw [ltOpt_none] at hq; simp at hq)
            | some c =>
              have h1 : ¬ weekdayMean sessions tz v < c := by
                intro hx
                rw [(ltOpt_some _ _).mpr hx] at hq
                simp at hq
              have h2 : weekdayMean sessions tz u < c := (ltOpt_some _ _).mp hbu
              linarith
          · exact hfirst v hv' hvo hvu

/-- Membership in the insertion-ordered key fold. -/
lemma mem_foldl_insertFirst (L : List Int) (acc : List Int) (d : Int) :
    d ∈ L.foldl insertFirst acc ↔ d ∈ acc ∨ d ∈ L := by
  induction L generalizing acc with
  | nil => simp
  | cons x xs ih =>
    rw [List.foldl_cons, ih]
    unfold insertFirst
    by_cases h : x ∈ acc
    · simp only [if_pos h, List.mem_cons]
      constructor
      · rintro (ha | hx)
        · exact Or.inl ha
        · exact Or.inr (Or.inr hx)
      · rintro (ha | rfl | hx)
        · exact Or.inl ha
        · exact Or.inl h
        · exact Or.inr hx
    · simp only [if_neg h, List.mem_append, List.mem_cons, List.not_mem_nil, or_false,
        List.mem_singleton]
      constructor
      · rintro ((ha | rfl) | hx)
        · exact Or.inl ha
        · exact Or.inr (Or.inl rfl)
        · exact Or.inr (Or.inr hx)
      · rintro (ha | rfl | hx)
        · exact Or.inl (Or.inl ha)
        · exact Or.inl (Or.inr rfl)
        · exact Or.inr hx

/-- The bucket keys are exactly the session dates. -/
lemma mem_bucketDates (sessions : List Session) (d : Int) :
    d ∈ bucketDates sessions ↔ d ∈ sessions.map Session.date := by
  unfold bucketDates
  rw [mem_foldl_insertFirst]
  simp

/-- A nonempty input observes at least one weekday. -/
lemma exists_obs (sessions : List Session) (tz : Int) (hne : sessions ≠ []) :
    ∃ w ∈ List.range 7, 0 < (dayTotalsFor sessions tz w).length := by
  obtain ⟨s0, rest, rfl⟩ := List.exists_cons_of_ne_nil hne
  have hd : s0.date ∈ bucketDates (s0 :: rest) := by
    rw [mem_bucketDates]
    simp
  have h1 : 0 ≤ jsDateGetDay s0.date tz := by
    unfold jsDateGetDay jsGetDay
    omega
  have h2 : jsDateGetDay s0.date tz < 7 := by
    unfold jsDateGetDay jsGetDay
    omega
  refine ⟨(jsDateGetDay s0.date tz).toNat, ?_, ?_⟩
  · rw [List.mem_range]
    omega
  · unfold dayTotalsFor
    rw [List.length_map]
    apply List.length_pos.mpr
    apply List.ne_nil_of_mem (a := (s0.date, dailyTotals (s0 :: rest) s0.date))
    rw [List.mem_filter]
    refine ⟨List.mem_map_of_mem _ hd, ?_⟩
    simp only [decide_eq_true_eq]
    exact (Int.toNat_of_nonneg h1).symm

/-- C8 counterexample: a single zero-duration session (one day-bucket exists)
leaves `bestDay` absent, because the initial best threshold 0 is never
strictly beaten, while `worstDay` is present — the claim promises both. -/
theorem c8_counterexample :
    (useAnalytics [{ date := 0 }] [] 200 6150 330).bestDay = none
    ∧ (useAnalytics [{ date := 0 }] [] 200 6150 330).worstDay = some "Thursday"
    ∧ bucketDates [{ date := 0 }] ≠ [] := by
  have hobs : ∀ w : Nat, w < 7 → w ≠ 4 → dayTotalsFor [{ date := 0 }] 330 w = [] := by decide
  have hobs4 : dayTotalsFor [{ date := 0 }] 330 4 = [0] := by decide
  have hmean4 : weekdayMean [{ date := 0 }] 330 4 = 0 := by
    unfold weekdayMean
    rw [hobs4]
    norm_num
  have honly : ∀ w ∈ List.range 7, 0 < (dayTotalsFor [{ date := 0 }] 330 w).length
      → w = 4 := by
    intro w hwm hwo
    by_contra hne4
    rw [hobs w (List.mem_range.mp hwm) hne4] at hwo
    simp at hwo
  have hb : (useAnalytics [{ date := 0 }] [] 200 6150 330).bestDay
      = (bwFinal [{ date := 0 }] 330).bestDay := by
    simp [useAnalytics]
  have hw : (useAnalytics [{ date := 0 }] [] 200 6150 330).worstDay
      = (bwFinal [{ date := 0 }] 330).worstDay := by
    simp [useAnalytics]
  have hpb : ((bwFinal [{ date := 0 }] 330).bestAvg, (bwFinal [{ date := 0 }] 330).bestDay)
      = (List.range 7).foldl (bestStep [{ date := 0 }] 330) (0, none) :=
    bwFoldl_best [{ date := 0 }] 330 (List.range 7) ⟨0, none, none, none⟩
  have hpw : ((bwFinal [{ date := 0 }] 330).worstAvg, (bwFinal [{ date := 0 }] 330).worstDay)
      = (List.range 7).foldl (worstStep [{ date := 0 }] 330) (none, none) :=
    bwFoldl_worst [{ date := 0 }] 330 (List.range 7) ⟨0, none, none, none⟩
  have hbd : (bwFinal [{ date := 0 }] 330).bestDay
      = ((List.range 7).foldl (bestStep [{ date := 0 }] 330) (0, none)).2 :=
    congrArg Prod.snd hpb
  have hwd : (bwFinal [{ date := 0 }] 330).worstDay
      = ((List.range 7).foldl (worstStep [{ date := 0 }] 330) (none, none)).2 :=
    congrArg Prod.snd hpw
  refine ⟨?_, ?_, by decide⟩
  · rcases bestFold_spec [{ date := 0 }] 330 (List.range 7) (by decide) 0 none with
      ⟨heqB, _⟩ | ⟨u, hum, huo, _, hbuB, _, _⟩
    · rw [hb, hbd, heqB]
    · obtain rfl := honly u hum huo
      rw [hmean4] at hbuB
      exact absurd hbuB (lt_irrefl 0)
  · rcases worstFold_spec [{ date := 0 }] 330 (List.range 7) (by decide) none none with
      ⟨_, hallW⟩ | ⟨v, hvm, hvo, heqW, _, _, _⟩
    · have h4 : (4 : Nat) ∈ List.range 7 := by decide
      have := hallW 4 h4 (by rw [hobs4]; simp)
      rw [ltOpt_none] at this
      simp at this
    · obtain rfl := honly v hvm hvo
      rw [hw, hwd, heqW]
      rfl

/-- C8 amended: for every nonempty input, `worstDay` is present; `bestDay` is
absent exactly when every observed weekday mean is at most 0 (the initial
best threshold is 0 and the comparison strict, so an all-zero input leaves it
absent); when present, `bestDay` names the first weekday (Sunday..Saturday
order) whose mean is positive, maximal, and strictly above every earlier
observed weekday's mean, and `worstDay` names the first weekday whose mean is
minimal and strictly below every earlier observed weekday's mean. -/
theorem c8_bestWorst_amended (sessions a : List Session) (t : ℚ) (n z : Int)
    (hne : sessions ≠ []) :
    (useAnalytics sessions a t n z).worstDay ≠ none
    ∧ ((useAnalytics sessions a t n z).bestDay = none
        ↔ ∀ w ∈ List.range 7, obsW sessions z w → weekdayMean sessions z w ≤ 0)
    ∧ (∀ nm, (useAnalytics sessions a t n z).bestDay = some nm →
        ∃ w ∈ List.range 7, obsW sessions z w ∧ nm = dayNames.getD w ""
          ∧ 0 < weekdayMean sessions z w
          ∧ (∀ u ∈ List.range 7, obsW sessions z u
              → weekdayMean sessions z u ≤ weekdayMean sessions z w)
          ∧ (∀ u ∈ List.range 7, obsW sessions z u → u < w
              → weekdayMean sessions z u < weekdayMean sessions z w))
    ∧ (∀ nm, (useAnalytics sessions a t n z).worstDay = some nm →
        ∃ w ∈ List.range 7, obsW sessions z w ∧ nm = dayNames.getD w ""
          ∧ (∀ u ∈ List.range 7, obsW sessions z u
              → weekdayMean sessions z w ≤ weekdayMean sessions z u)
          ∧ (∀ u ∈ List.range 7, obsW sessions z u → u < w
              → weekdayMean sessions z w < weekdayMean sessions z u)) := by
  have hb : (useAnalytics sessions a t n z).bestDay = (bwFinal sessions z).bestDay := by
    simp [useAnalytics, if_neg hne]
  have hw : (useAnalytics sessions a t n z).worstDay = (bwFinal sessions z).worstDay := by
    simp [useAnalytics, if_neg hne]
  have hpb : ((bwFinal sessions z).bestAvg, (bwFinal sessions z).bestDay)
      = (List.range 7).foldl (bestStep sessions z) (0, none) :=
    bwFoldl_best sessions z (List.range 7) ⟨0, none, none, none⟩
  have hpw : ((bwFinal sessions z).worstAvg, (bwFinal sessions z).worstDay)
      = (List.range 7).foldl (worstStep sessions z) (none, none) :=
    bwFoldl_worst sessions z (List.range 7) ⟨0, none, none, none⟩
  have hbd : (bwFinal sessions z).bestDay
      = ((List.range 7).foldl (bestStep sessions z) (0, none)).2 :=
    congrArg Prod.snd hpb
  have hwd : (bwFinal sessions z).worstDay
      = ((List.range 7).foldl (worstStep sessions z) (none, none)).2 :=
    congrArg Prod.snd hpw
  obtain ⟨w0, hw0m, hw0o⟩ := exists_obs sessions z hne
  rcases worstFold_spec sessions z (List.range 7) (by decide) none none with
    ⟨_, hallW⟩ | ⟨v, hvm, hvo, heqW, _, hminW, hfirstW⟩
  · have := hallW w0 hw0m hw0o
    rw [ltOpt_none] at this
    simp at this
  · have hworst : (bwFinal sessions z).worstDay = some (dayNames.getD v "") := by
      rw [hwd, heqW]
    refine ⟨?_, ?_, ?_, ?_⟩
    · rw [hw, hworst]
      simp
    · rcases bestFold_spec sessions z (List.range 7) (by decide) 0 none with
        ⟨heqB, hallB⟩ | ⟨u, hum, huo, heqB, hbuB, _, _⟩
      · have hnone : (bwFinal sessions z).bestDay = none := by rw [hbd, heqB]
        constructor
        · intro _ w hwm' hwo'
          exact hallB w hwm' (List.length_pos.mpr hwo')
        · intro _
          rw [hb]
          exact hnone
      · have hsome : (bwFinal sessions z).bestDay = some (dayNames.getD u "") := by
          rw [hbd, heqB]
        constructor
        · intro h
          rw [hb, hsome] at h
          simp at h
        · intro hforall
          have := hforall u hum (List.length_pos.mp huo)
          linarith
    · intro nm hnm
      rcases bestFold_spec sessions z (List.range 7) (by decide) 0 none with
        ⟨heqB, _⟩ | ⟨u, hum, huo, heqB, hbuB, hmaxB, hfirstB⟩
      · have hnone : (bwFinal sessions z).bestDay = none := by rw [hbd, heqB]
        rw [hb, hnone] at hnm
        simp at hnm
      · have hsome : (bwFinal sessions z).bestDay = some (dayNames.getD u "") := by
          rw [hbd, heqB]
        rw [hb, hsome] at hnm
        have hnmeq : nm = dayNames.getD u "" := (Option.some_inj.mp hnm).symm
        refine ⟨u, hum, List.length_pos.mp huo, hnmeq, hbuB, ?_, ?_⟩
        · intro v' hv'm hv'o
          exact hmaxB v' hv'm (List.length_pos.mpr hv'o)
        · intro v' hv'm hv'o hlt
          exact hfirstB v' hv'm (List.length_pos.mpr hv'o) hlt
    · intro nm hnm
      rw [hw, hworst] at hnm
      have hnmeq : nm = dayNames.getD v "" := (Option.some_inj.mp hnm).symm
      refine ⟨v, hvm, List.length_pos.mp hvo, hnmeq, ?_, ?_⟩
      · intro u hum huo
        exact hminW u hum (List.length_pos.mpr huo)
      · intro u hum huo hlt
        exact hfirstW u hum (List.length_pos.mpr huo) hlt

/-- C8 amended, witness: a concrete nonempty input satisfying the hypothesis. -/
theorem c8_bestWorst_amended_witness :
    ({ date := 4, duration_minutes := 400 } : Session) :: [] ≠ []
    ∧ ((useAnalytics [{ date := 4, duration_minutes := 400 }] [] 200 6150 330).worstDay ≠ none
      ∧ ((useAnalytics [{ date := 4, duration_minutes := 400 }] [] 200 6150 330).bestDay = none
          ↔ ∀ w ∈ List.range 7, obsW [{ date := 4, duration_minutes := 400 }] 330 w
              → weekdayMean [{ date := 4, duration_minutes := 400 }] 330 w ≤ 0)
      ∧ (∀ nm, (useAnalytics [{ date := 4, duration_minutes := 400 }] [] 200 6150 330).bestDay
            = some nm →
          ∃ w ∈ List.range 7, obsW [{ date := 4, duration_minutes := 400 }] 330 w
            ∧ nm = dayNames.getD w ""
            ∧ 0 < weekdayMean [{ date := 4, duration_minutes := 400 }] 330 w
            ∧ (∀ u ∈ List.range 7, obsW [{ date := 4, duration_minutes := 400 }] 330 u
                → weekdayMean [{ date := 4, duration_minutes := 400 }] 330 u
                  ≤ weekdayMean [{ date := 4, duration_minutes := 400 }] 330 w)
            ∧ (∀ u ∈ List.range 7, obsW [{ date := 4, duration_minutes := 400 }] 330 u → u < w
                → weekdayMean [{ date := 4, duration_minutes := 400 }] 330 u
                  < weekdayMean [{ date := 4, duration_minutes := 400 }] 330 w))
      ∧ (∀ nm, (useAnalytics [{ date := 4, duration_minutes := 400 }] [] 200 6150 330).worstDay
            = some nm →
          ∃ w ∈ List.range 7, obsW [{ date := 4, duration_minutes := 400 }] 330 w
            ∧ nm = dayNames.getD w ""
            ∧ (∀ u ∈ List.range 7, obsW [{ date := 4, duration_minutes := 400 }] 330 u
                → weekdayMean [{ date := 4, duration_minutes := 400 }] 330 w
                  ≤ weekdayMean [{ date := 4, duration_minutes := 400 }] 330 u)
            ∧ (∀ u ∈ List.range 7, obsW [{ date := 4, duration_minutes := 400 }] 330 u → u < w
                → weekdayMean [{ date := 4, duration_minutes := 400 }] 330 w
                  < weekdayMean [{ date := 4, duration_minutes := 400 }] 330 u))) :=
  ⟨by decide,
    c8_bestWorst_amended [{ date := 4, duration_minutes := 400 }] [] 200 6150 330 (by decide)⟩
